import Mathlib

/-!
Verification of the geometric post-processing and assembly pipeline of the
text-detection repository (files `text_detection_app.py`, `ctpn/core.py`,
`densenetocr/core.py`).

The embedding below translates the Python source shallowly:

* machine integers (numpy int32, Python int) become `ℤ`;
* Python float arithmetic is idealised as exact real (`ℝ`) or rational (`ℚ`)
  arithmetic; `int(x)` (truncation toward zero) becomes `truncR` / `truncQ`;
* numpy array slicing `a[i:j]` becomes the Python slice semantics `pyIdx` /
  `pySliceLen` / `pySliceSet` (negative stops count from the end, bounds are
  clamped to the array length);
* the two neural networks are opaque collaborators: the recognition network
  is an arbitrary function from an image to a character-probability matrix,
  and the detection output `text_recs` is an arbitrary list of records;
* images carry only the data the pipeline inspects: their dimensions.

Dynamically typed Python values that flow through `TextDetectionApp.detect`
(the tuple returned by `DenseNetOCR.predict`, to which the orchestrator
applies `len`) are modelled by the inductive `PyVal`.
-/

/-- Integer point `(x, y)` in pixel coordinates, as the Python tuples
`pt1 = (..., ...)` etc. built in `TextDetectionApp.detect`. -/
structure Pt where
  x : ℤ
  y : ℤ
deriving DecidableEq

/-- One row of the `text_recs` array returned by `CTPN.predict` (mode 2).
`TextDetectionApp.detect` reads only entries 0..3 (`rec[0]`, `rec[1]`,
`rec[2]`, `rec[3]`); the remaining entries (`rec[4:]`, further corner
coordinates and the score, after `text.astype('int32')`) are carried opaquely
in `rest`. -/
structure TextRec where
  x1 : ℤ
  y1 : ℤ
  x2 : ℤ
  y2 : ℤ
  rest : List ℤ
deriving DecidableEq

/-- A PIL image as the pipeline sees it: only its size `(width, height)`
matters to the modelled code paths (`im.size[0]` is the width, `im.size[1]`
the height). -/
structure PILImg where
  width : ℕ
  height : ℕ
deriving DecidableEq

/-- Dynamically typed Python value flowing through the orchestrator: the
decoded string, a PIL image, or a tuple of values (`DenseNetOCR.predict`
returns the pair `(out, im)`). -/
inductive PyVal where
  | str (s : String)
  | img (im : PILImg)
  | tup (xs : List PyVal)

/-- Python `len` on the values the orchestrator applies it to: length of a
string, arity of a tuple.  (`len` of a PIL image raises `TypeError` in
Python; `detect` only ever takes `len` of the 2-tuple returned by
`DenseNetOCR.predict`, so the `img` branch is never reached and its value is
irrelevant.) -/
def pyLen : PyVal → ℕ
  | .str s => s.length
  | .img _ => 0
  | .tup xs => xs.length

/-- Truncation toward zero of a rational, Python's `int(x)` applied to the
exact value of a float expression. -/
def truncQ (q : ℚ) : ℤ := if 0 ≤ q then ⌊q⌋ else ⌈q⌉

/-- Truncation toward zero of a real, Python's `int(x)`. -/
noncomputable def truncR (x : ℝ) : ℤ := if 0 ≤ x then ⌊x⌋ else ⌈x⌉

/-- Effective index of a Python slice endpoint `i` for a sequence of length
`n`: non-negative endpoints are clamped to `n`, negative endpoints count from
the end and are clamped to `0`. -/
def pyIdx (i n : ℤ) : ℤ := if 0 ≤ i then min i n else max 0 (n + i)

/-- Number of elements selected by the Python slice `a[i:j]` on a sequence of
length `n`. -/
def pySliceLen (i j n : ℤ) : ℕ := (pyIdx j n - pyIdx i n).toNat

/-- Set of element indices read by the Python slice `a[i:j]` on a sequence of
length `n`. -/
def pySliceSet (i j n : ℤ) : Set ℤ := Set.Ico (pyIdx i n) (pyIdx j n)

/-! ## Geometry of `dumpRotateImage` (text_detection_app.py, lines 12-29)

`dumpRotateImage(img, degree, pt1, pt2, pt3, pt4)` rotates the source image
by `degree` about its centre on an enlarged canvas, maps `pt1` (top-left) and
`pt3` (bottom-right) through the same affine matrix, and crops the rotated
canvas to the transformed rectangle, clamped to `[1, dim-1]`.  Only the
dimensions of the result are observable downstream (`partImg.shape`), so the
embedding tracks the canvas size and the crop's slice bounds. -/

/-- Conversion used by `radians(degree)` in the Python source. -/
noncomputable def toRadians (d : ℝ) : ℝ := d * Real.pi / 180

/-- Conversion used by `degrees(...)` in the Python source. -/
noncomputable def toDegrees (r : ℝ) : ℝ := r * 180 / Real.pi

/-- Four-quadrant arctangent, `math.atan2(y, x)` (result in radians,
`atan2 0 0 = 0` as in Python). -/
noncomputable def atan2 (y x : ℝ) : ℝ :=
  if 0 < x then Real.arctan (y / x)
  else if x < 0 ∧ 0 ≤ y then Real.arctan (y / x) + Real.pi
  else if x < 0 ∧ y < 0 then Real.arctan (y / x) - Real.pi
  else if x = 0 ∧ 0 < y then Real.pi / 2
  else if x = 0 ∧ y < 0 then -(Real.pi / 2)
  else 0

/-- Height of the enlarged canvas:
`heightNew = int(width * fabs(sin(radians(degree))) + height * fabs(cos(radians(degree))))`. -/
noncomputable def heightNew (h w : ℕ) (d : ℝ) : ℤ :=
  truncR ((w : ℝ) * |Real.sin (toRadians d)| + (h : ℝ) * |Real.cos (toRadians d)|)

/-- Width of the enlarged canvas:
`widthNew = int(height * fabs(sin(radians(degree))) + width * fabs(cos(radians(degree))))`. -/
noncomputable def widthNew (h w : ℕ) (d : ℝ) : ℤ :=
  truncR ((h : ℝ) * |Real.sin (toRadians d)| + (w : ℝ) * |Real.cos (toRadians d)|)

/-- Translation component `matRotation[0, 2]` of the affine matrix:
`cv2.getRotationMatrix2D((width // 2, height // 2), degree, 1)` gives
`(1 - cos θ) * cx - sin θ * cy` with `θ = radians(degree)`, `cx = width // 2`,
`cy = height // 2`; the source then adds `(widthNew - width) // 2`
(Python floor division). -/
noncomputable def matT0 (h w : ℕ) (d : ℝ) : ℝ :=
  (1 - Real.cos (toRadians d)) * ((w / 2 : ℕ) : ℝ) - Real.sin (toRadians d) * ((h / 2 : ℕ) : ℝ)
    + ((Int.fdiv (widthNew h w d - (w : ℤ)) 2 : ℤ) : ℝ)

/-- Translation component `matRotation[1, 2]`:
`sin θ * cx + (1 - cos θ) * cy` plus the added `(heightNew - height) // 2`. -/
noncomputable def matT1 (h w : ℕ) (d : ℝ) : ℝ :=
  Real.sin (toRadians d) * ((w / 2 : ℕ) : ℝ) + (1 - Real.cos (toRadians d)) * ((h / 2 : ℕ) : ℝ)
    + ((Int.fdiv (heightNew h w d - (h : ℤ)) 2 : ℤ) : ℝ)

/-- The x-coordinate of `matRotation · (p.x, p.y, 1)`:
row 0 of the matrix is `(cos θ, sin θ, matT0)`. -/
noncomputable def txX (h w : ℕ) (d : ℝ) (p : Pt) : ℝ :=
  Real.cos (toRadians d) * (p.x : ℝ) + Real.sin (toRadians d) * (p.y : ℝ) + matT0 h w d

/-- The y-coordinate of `matRotation · (p.x, p.y, 1)`:
row 1 of the matrix is `(-sin θ, cos θ, matT1)`. -/
noncomputable def txY (h w : ℕ) (d : ℝ) (p : Pt) : ℝ :=
  -Real.sin (toRadians d) * (p.x : ℝ) + Real.cos (toRadians d) * (p.y : ℝ) + matT1 h w d

/-- Start of the row slice of the crop, `max(1, int(pt1[1]))` after `pt1` has
been transformed. -/
noncomputable def rowStart (h w : ℕ) (d : ℝ) (pt1 : Pt) : ℤ :=
  max 1 (truncR (txY h w d pt1))

/-- Stop of the row slice of the crop, `min(ydim - 1, int(pt3[1]))` with
`ydim = heightNew`. -/
noncomputable def rowStop (h w : ℕ) (d : ℝ) (pt3 : Pt) : ℤ :=
  min (heightNew h w d - 1) (truncR (txY h w d pt3))

/-- Start of the column slice of the crop, `max(1, int(pt1[0]))`. -/
noncomputable def colStart (h w : ℕ) (d : ℝ) (pt1 : Pt) : ℤ :=
  max 1 (truncR (txX h w d pt1))

/-- Stop of the column slice of the crop, `min(xdim - 1, int(pt3[0]))` with
`xdim = widthNew`. -/
noncomputable def colStop (h w : ℕ) (d : ℝ) (pt3 : Pt) : ℤ :=
  min (widthNew h w d - 1) (truncR (txX h w d pt3))

/-- Shape `(rows, cols)` of the crop `imgOut` returned by `dumpRotateImage`
for a source image of `h` rows and `w` columns.  (The unused corner arguments
`pt2`, `pt4` of the Python function do not influence the result and are
omitted.) -/
noncomputable def dumpRotateImageShape (h w : ℕ) (d : ℝ) (pt1 pt3 : Pt) : ℕ × ℕ :=
  (pySliceLen (rowStart h w d pt1) (rowStop h w d pt3) (heightNew h w d),
   pySliceLen (colStart h w d pt1) (colStop h w d pt3) (widthNew h w d))

/-- Set of row indices of the rotated canvas read by the crop. -/
noncomputable def cropRowSet (h w : ℕ) (d : ℝ) (pt1 pt3 : Pt) : Set ℤ :=
  pySliceSet (rowStart h w d pt1) (rowStop h w d pt3) (heightNew h w d)

/-- Set of column indices of the rotated canvas read by the crop. -/
noncomputable def cropColSet (h w : ℕ) (d : ℝ) (pt1 pt3 : Pt) : Set ℤ :=
  pySliceSet (colStart h w d pt1) (colStop h w d pt3) (widthNew h w d)

/-! ## Sequence decoding (densenetocr/core.py, lines 150-172)

`DenseNetOCR.predict` resizes the input strip to height 32, runs the
recognition network, decodes the `[T, num_classes]` probability matrix with
`K.ctc_decode` (greedy), maps the surviving indices through `id_to_char` and
joins them, and returns the pair `(out, im)`. -/

/-- Index of the first maximal entry of a row, `np.argmax` semantics
(`argmaxIdx [] = 0` is never exercised: numpy raises on an empty row). -/
def argmaxIdx : List ℚ → ℕ
  | [] => 0
  | x :: xs =>
    let j := argmaxIdx xs
    if x < xs.getD j x then j + 1 else 0

/-- Collapse of consecutive repeated symbols to one occurrence. -/
def collapseRepeats : List ℕ → List ℕ
  | [] => []
  | [x] => [x]
  | x :: y :: rest =>
    if x = y then collapseRepeats (y :: rest) else x :: collapseRepeats (y :: rest)

/-- Modelled from the spec: the greedy (best-path) CTC decoding performed by
`K.ctc_decode(y_pred, input_length=..., greedy)` — Keras library code, not
part of this repository's sources.  Per the spec (§4.8): take `argmax` per
timestep, collapse consecutive repeated symbols, drop all blank-symbol
occurrences.  `blank` is the reserved blank index. -/
def ctcGreedyDecode (mat : List (List ℚ)) (blank : ℕ) : List ℕ :=
  (collapseRepeats (mat.map argmaxIdx)).filter (fun s => decide (s ≠ blank))

/-- Decoded text: surviving indices mapped through the dictionary and
concatenated (`u''.join([id_to_char[x] for x in out[0]])`). -/
def decodeText (mat : List (List ℚ)) (blank : ℕ) (id_to_char : ℕ → String) : String :=
  String.join ((ctcGreedyDecode mat blank).map id_to_char)

/-- Width of the strip after the resize in `DenseNetOCR.predict`:
`scale = im.size[1] * 1.0 / 32; w = int(im.size[0] / scale)` — exactly
`int(width * 32 / height)` in ideal arithmetic. -/
def ocrResizeWidth (im : PILImg) : ℤ :=
  truncQ ((im.width : ℚ) / ((im.height : ℚ) / 32))

/-- The resized strip `im = im.resize((w, 32), Image.ANTIALIAS)`:
height fixed at 32, width `ocrResizeWidth`. -/
def ocrResize (im : PILImg) : PILImg :=
  ⟨(ocrResizeWidth im).toNat, 32⟩

/-- Shallow embedding of `DenseNetOCR.predict(image, id_to_char)`:
grayscale-convert and resize the strip, run the (opaque) recognition network
`net` on it, greedily decode the probability matrix, and return the *pair*
`(out, im)` — the decoded string together with the resized image — as the
tuple value the dynamically typed caller receives. -/
def DenseNetOCR.predictVal (net : PILImg → List (List ℚ)) (blank : ℕ)
    (id_to_char : ℕ → String) (image : PILImg) : PyVal :=
  let im := ocrResize image
  let out := decodeText (net im) blank id_to_char
  .tup [.str out, .img im]

/-! ## Proposal filtering (ctpn/core.py, lines 152-163)

`CTPN.predict` keeps the decoded boxes whose foreground score exceeds 0.7
(`fg = np.where(cls_prod[0, :, 1] > 0.7)[0]`) and then drops the boxes whose
width or height is below one stride (`keep_index = utils.filter_bbox(select_anchor, 16)`). -/

/-- An int32 box `(x1, y1, x2, y2)` as produced by
`select_anchor.astype('int32')`. -/
structure IntBox where
  x1 : ℤ
  y1 : ℤ
  x2 : ℤ
  y2 : ℤ
deriving DecidableEq

/-- Score-threshold mask: keep a `(box, score)` pair when the foreground
score exceeds 0.7 (`cls_prod[0, :, 1] > 0.7`). -/
def scoreMask (p : IntBox × ℚ) : Bool := decide ((0.7 : ℚ) < p.2)

/-- Modelled from the spec: `utils.filter_bbox(bbox, minsize)` — its source
(`ctpn/lib/utils.py`) is not among the provided files.  Per the spec (§4.3),
it discards boxes whose width or height is below `minsize` (one stride,
16 px); widths and heights are pixel counts (`x2 - x1 + 1`, `y2 - y1 + 1`). -/
def filterBboxKeep (minsize : ℤ) (b : IntBox) : Bool :=
  decide (minsize ≤ b.x2 - b.x1 + 1 ∧ minsize ≤ b.y2 - b.y1 + 1)

/-- Minimum-size mask at one stride (16 px), as applied in `CTPN.predict`. -/
def sizeMask (p : IntBox × ℚ) : Bool := filterBboxKeep 16 p.1

/-- The two filters in the order the source applies them: score threshold
first, then minimum size. -/
def ctpnFiltered (l : List (IntBox × ℚ)) : List (IntBox × ℚ) :=
  (l.filter scoreMask).filter sizeMask

/-! ## The orchestrator `TextDetectionApp.detect` (text_detection_app.py, lines 56-89)

For each `(index, rec)` of `enumerate(text_recs)` the source computes the
margin lengths, the (optionally expanded) corner points, the tilt angle, the
rectified crop, and — when the crop passes the geometric sanity check —
records `results[index] = [rec, text]` with `text = self.ocr.predict(...)`
whenever `len(text) > 0`. -/

/-- Margin `xlength = int((rec[2] - rec[0]) * 0.1)`. -/
def xlength (rec : TextRec) : ℤ := truncQ (((rec.x2 - rec.x1 : ℤ) : ℚ) * 0.1)

/-- Margin `ylength = int((rec[3] - rec[1]) * 0.2)`. -/
def ylength (rec : TextRec) : ℤ := truncQ (((rec.y2 - rec.y1 : ℤ) : ℚ) * 0.2)

/-- Corner `pt1` (top-left) as built by `detect`: expanded by the margins when
`adjust` is set, then clamped to at least `(1, 1)`. -/
def detectPt1 (adjust : Bool) (rec : TextRec) : Pt :=
  if adjust then ⟨max 1 (rec.x1 - xlength rec), max 1 (rec.y1 - ylength rec)⟩
  else ⟨max 1 rec.x1, max 1 rec.y1⟩

/-- Corner `pt2 = (rec[2], rec[1])` as built by `detect` (identical in both
branches). -/
def detectPt2 (rec : TextRec) : Pt := ⟨rec.x2, rec.y1⟩

/-- Corner `pt3` (bottom-right) as built by `detect`: expanded by the margins
when `adjust` is set, then clamped to at most `(xDim - 2, yDim - 2)` where
`xDim, yDim = img.shape[1], img.shape[0]`. -/
def detectPt3 (adjust : Bool) (rec : TextRec) (imgH imgW : ℕ) : Pt :=
  if adjust then
    ⟨min (rec.x2 + xlength rec) ((imgW : ℤ) - 2), min ((imgH : ℤ) - 2) (rec.y2 + ylength rec)⟩
  else ⟨min rec.x2 ((imgW : ℤ) - 2), min ((imgH : ℤ) - 2) rec.y2⟩

/-- Corner `pt4 = (rec[0], rec[3])` as built by `detect` (passed to
`dumpRotateImage`, which ignores it). -/
def detectPt4 (rec : TextRec) : Pt := ⟨rec.x1, rec.y2⟩

/-- Tilt angle
`degree = degrees(atan2(pt2[1] - pt1[1], pt2[0] - pt1[0]))`. -/
noncomputable def detectDegree (adjust : Bool) (rec : TextRec) : ℝ :=
  toDegrees (atan2 (((detectPt2 rec).y - (detectPt1 adjust rec).y : ℤ) : ℝ)
    (((detectPt2 rec).x - (detectPt1 adjust rec).x : ℤ) : ℝ))

/-- Shape of `partImg = dumpRotateImage(img, degree, pt1, pt2, pt3, pt4)` for
one region. -/
noncomputable def detectCropShape (imgH imgW : ℕ) (adjust : Bool) (rec : TextRec) : ℕ × ℕ :=
  dumpRotateImageShape imgH imgW (detectDegree adjust rec)
    (detectPt1 adjust rec) (detectPt3 adjust rec imgH imgW)

/-- Geometric sanity check of the source, line 79:
`partImg.shape[0] < 1 or partImg.shape[1] < 1 or partImg.shape[0] > partImg.shape[1]`. -/
def badCrop (s : ℕ × ℕ) : Prop := s.1 < 1 ∨ s.2 < 1 ∨ s.2 < s.1

instance (s : ℕ × ℕ) : Decidable (badCrop s) := by
  unfold badCrop; infer_instance

/-- PIL image built from the crop of one region:
`Image.fromarray(partImg).convert('L')`, of size `(shape[1], shape[0])`. -/
noncomputable def detectCropImage (imgH imgW : ℕ) (adjust : Bool) (rec : TextRec) : PILImg :=
  ⟨(detectCropShape imgH imgW adjust rec).2, (detectCropShape imgH imgW adjust rec).1⟩

/-- Result-map contribution of one region: empty when the crop fails the
sanity check (source line 79-80, `continue`); otherwise the crop is
grayscale-converted and recognised (`text = self.ocr.predict(image,
self.id_to_char)`), and the entry `[rec, text]` is recorded under the
region's index whenever `len(text) > 0` (source lines 85-87). -/
noncomputable def regionEntry (imgH imgW : ℕ) (adjust : Bool)
    (net : PILImg → List (List ℚ)) (blank : ℕ) (id_to_char : ℕ → String)
    (index : ℕ) (rec : TextRec) : List (ℕ × TextRec × PyVal) :=
  if badCrop (detectCropShape imgH imgW adjust rec) then []
  else if 0 < pyLen (DenseNetOCR.predictVal net blank id_to_char
      (detectCropImage imgH imgW adjust rec)) then
    [(index, rec,
      DenseNetOCR.predictVal net blank id_to_char (detectCropImage imgH imgW adjust rec))]
  else []

/-- Loop of `detect` over `enumerate(text_recs)` starting at `index`;
recorded entries are accumulated in enumeration order. -/
noncomputable def detectLoop (imgH imgW : ℕ) (adjust : Bool)
    (net : PILImg → List (List ℚ)) (blank : ℕ) (id_to_char : ℕ → String) :
    ℕ → List TextRec → List (ℕ × TextRec × PyVal)
  | _, [] => []
  | index, rec :: rest =>
    regionEntry imgH imgW adjust net blank id_to_char index rec
      ++ detectLoop imgH imgW adjust net blank id_to_char (index + 1) rest

/-- Shallow embedding of `TextDetectionApp.detect(image_path, adjust)`:
`text_recs, img = self.ctpn.predict(image_path, mode=2)` is abstracted into
the list `text_recs` and the image dimensions `imgH × imgW`
(`xDim, yDim = img.shape[1], img.shape[0]`); the recognition model is the
opaque `net` together with the blank index and the dictionary.  The returned
association list models the dict `results` (keys in insertion order). -/
noncomputable def TextDetectionApp.detect (text_recs : List TextRec) (imgH imgW : ℕ)
    (adjust : Bool) (net : PILImg → List (List ℚ)) (blank : ℕ)
    (id_to_char : ℕ → String) : List (ℕ × TextRec × PyVal) :=
  detectLoop imgH imgW adjust net blank id_to_char 0 text_recs

/-! ## Basic lemmas about the Python primitives -/

lemma truncQ_intCast (n : ℤ) : truncQ (n : ℚ) = n := by
  unfold truncQ
  split <;> simp

lemma truncR_intCast (n : ℤ) : truncR (n : ℝ) = n := by
  unfold truncR
  split <;> simp

lemma truncR_natCast (n : ℕ) : truncR (n : ℝ) = n := by
  have h : ((n : ℤ) : ℝ) = (n : ℝ) := by push_cast; rfl
  rw [← h, truncR_intCast]

lemma truncR_nonneg {x : ℝ} (hx : 0 ≤ x) : 0 ≤ truncR x := by
  unfold truncR
  rw [if_pos hx]
  exact Int.floor_nonneg.mpr hx

lemma truncQ_intCast_div (n : ℤ) (d : ℕ) :
    truncQ ((n : ℚ) / (d : ℚ)) = Int.tdiv n d := by
  rcases Nat.eq_zero_or_pos d with hd | hd
  · subst hd
    simp [truncQ, Int.tdiv_zero]
  · by_cases hn : 0 ≤ n
    · have hq : 0 ≤ (n : ℚ) / (d : ℚ) := by positivity
      rw [truncQ, if_pos hq, Rat.floor_intCast_div_natCast]
      exact (Int.tdiv_eq_ediv hn (Int.natCast_nonneg d)).symm
    · push_neg at hn
      have hq : ¬ 0 ≤ (n : ℚ) / (d : ℚ) := by
        rw [not_le]
        apply div_neg_of_neg_of_pos
        · exact_mod_cast hn
        · exact_mod_cast hd
      rw [truncQ, if_neg hq]
      have h1 : (n : ℚ) / (d : ℚ) = -((-n : ℤ) / (d : ℚ)) := by push_cast; ring
      rw [h1, Int.ceil_neg, Rat.floor_intCast_div_natCast]
      have h2 : Int.tdiv (-n) (d : ℤ) = (-n) / (d : ℤ) :=
        Int.tdiv_eq_ediv (by omega : (0 : ℤ) ≤ -n) (Int.natCast_nonneg d)
      rw [← h2, Int.neg_tdiv, neg_neg]

lemma xlength_eq (rec : TextRec) : xlength rec = Int.tdiv (rec.x2 - rec.x1) 10 := by
  have h : ((rec.x2 - rec.x1 : ℤ) : ℚ) * 0.1 = ((rec.x2 - rec.x1 : ℤ) : ℚ) / ((10 : ℕ) : ℚ) := by
    rw [show (0.1 : ℚ) = 1 / 10 from by norm_num]
    push_cast
    ring
  rw [xlength, h, truncQ_intCast_div]
  norm_num

lemma ylength_eq (rec : TextRec) : ylength rec = Int.tdiv (rec.y2 - rec.y1) 5 := by
  have h : ((rec.y2 - rec.y1 : ℤ) : ℚ) * 0.2 = ((rec.y2 - rec.y1 : ℤ) : ℚ) / ((5 : ℕ) : ℚ) := by
    rw [show (0.2 : ℚ) = 1 / 5 from by norm_num]
    push_cast
    ring
  rw [ylength, h, truncQ_intCast_div]
  norm_num

lemma pyIdx_le_of_nonneg {i n : ℤ} (hi : 0 ≤ i) : pyIdx i n = min i n := by
  rw [pyIdx, if_pos hi]

lemma pySliceSet_subset {i j n : ℤ} (hn : 0 ≤ n) (hi : 1 ≤ i) (hj : j ≤ n - 1) :
    pySliceSet i j n ⊆ Set.Icc 1 (n - 2) := by
  intro k hk
  rcases hk with ⟨hk1, hk2⟩
  rw [pyIdx_le_of_nonneg (by omega)] at hk1
  rw [Set.mem_Icc]
  rcases eq_or_lt_of_le hn with hn0 | hn1
  · exfalso
    have hstop : pyIdx j n ≤ 0 := by
      rw [pyIdx]
      split <;> omega
    omega
  · have hstop : pyIdx j n ≤ n - 1 := by
      rw [pyIdx]
      split <;> omega
    omega

/-! ## Evaluation lemmas at rotation angle zero -/

lemma toRadians_zero : toRadians 0 = 0 := by
  unfold toRadians
  ring

lemma toDegrees_zero : toDegrees 0 = 0 := by
  unfold toDegrees
  ring

lemma atan2_zero_of_pos {x : ℝ} (hx : 0 < x) : atan2 0 x = 0 := by
  unfold atan2
  rw [if_pos hx, zero_div, Real.arctan_zero]

lemma heightNew_zero (h w : ℕ) : heightNew h w 0 = h := by
  unfold heightNew
  rw [toRadians_zero, Real.sin_zero, Real.cos_zero]
  norm_num [truncR_natCast]

lemma widthNew_zero (h w : ℕ) : widthNew h w 0 = w := by
  unfold widthNew
  rw [toRadians_zero, Real.sin_zero, Real.cos_zero]
  norm_num [truncR_natCast]

lemma matT0_zero (h w : ℕ) : matT0 h w 0 = 0 := by
  unfold matT0
  rw [toRadians_zero, Real.sin_zero, Real.cos_zero, widthNew_zero]
  norm_num

lemma matT1_zero (h w : ℕ) : matT1 h w 0 = 0 := by
  unfold matT1
  rw [toRadians_zero, Real.sin_zero, Real.cos_zero, heightNew_zero]
  norm_num

lemma txX_zero (h w : ℕ) (p : Pt) : txX h w 0 p = (p.x : ℝ) := by
  unfold txX
  rw [toRadians_zero, Real.sin_zero, Real.cos_zero, matT0_zero]
  ring

lemma txY_zero (h w : ℕ) (p : Pt) : txY h w 0 p = (p.y : ℝ) := by
  unfold txY
  rw [toRadians_zero, Real.sin_zero, Real.cos_zero, matT1_zero]
  ring

lemma rowStart_zero (h w : ℕ) (p : Pt) : rowStart h w 0 p = max 1 p.y := by
  unfold rowStart
  rw [txY_zero, truncR_intCast]

lemma rowStop_zero (h w : ℕ) (p : Pt) : rowStop h w 0 p = min ((h : ℤ) - 1) p.y := by
  unfold rowStop
  rw [txY_zero, truncR_intCast, heightNew_zero]

lemma colStart_zero (h w : ℕ) (p : Pt) : colStart h w 0 p = max 1 p.x := by
  unfold colStart
  rw [txX_zero, truncR_intCast]

lemma colStop_zero (h w : ℕ) (p : Pt) : colStop h w 0 p = min ((w : ℤ) - 1) p.x := by
  unfold colStop
  rw [txX_zero, truncR_intCast, widthNew_zero]

lemma dumpRotateImageShape_zero (h w : ℕ) (pt1 pt3 : Pt) :
    dumpRotateImageShape h w 0 pt1 pt3 =
      (pySliceLen (max 1 pt1.y) (min ((h : ℤ) - 1) pt3.y) h,
       pySliceLen (max 1 pt1.x) (min ((w : ℤ) - 1) pt3.x) w) := by
  unfold dumpRotateImageShape
  rw [rowStart_zero, rowStop_zero, colStart_zero, colStop_zero, heightNew_zero, widthNew_zero]

lemma heightNew_nonneg (h w : ℕ) (d : ℝ) : 0 ≤ heightNew h w d := by
  apply truncR_nonneg
  positivity

lemma widthNew_nonneg (h w : ℕ) (d : ℝ) : 0 ≤ widthNew h w d := by
  apply truncR_nonneg
  positivity

/-! ## Lemmas about the detect loop -/

lemma detectDegree_eq_zero {adjust : Bool} {rec : TextRec}
    (h1 : (detectPt1 adjust rec).y = rec.y1) (h2 : (detectPt1 adjust rec).x < rec.x2) :
    detectDegree adjust rec = 0 := by
  unfold detectDegree detectPt2
  have hy : (((rec.y1 - (detectPt1 adjust rec).y : ℤ)) : ℝ) = 0 := by
    rw [h1]
    norm_num
  have hx : (0 : ℝ) < ((rec.x2 - (detectPt1 adjust rec).x : ℤ) : ℝ) := by
    have : (0 : ℤ) < rec.x2 - (detectPt1 adjust rec).x := by omega
    exact_mod_cast this
  simp only
  rw [hy, atan2_zero_of_pos hx, toDegrees_zero]

lemma pyLen_predictVal (net : PILImg → List (List ℚ)) (blank : ℕ)
    (id_to_char : ℕ → String) (image : PILImg) :
    pyLen (DenseNetOCR.predictVal net blank id_to_char image) = 2 := rfl

lemma regionEntry_eq (imgH imgW : ℕ) (adjust : Bool) (net : PILImg → List (List ℚ))
    (blank : ℕ) (id_to_char : ℕ → String) (index : ℕ) (rec : TextRec) :
    regionEntry imgH imgW adjust net blank id_to_char index rec =
      if badCrop (detectCropShape imgH imgW adjust rec) then []
      else [(index, rec,
        DenseNetOCR.predictVal net blank id_to_char (detectCropImage imgH imgW adjust rec))] := by
  unfold regionEntry
  by_cases hb : badCrop (detectCropShape imgH imgW adjust rec)
  · rw [if_pos hb, if_pos hb]
  · rw [if_neg hb, if_neg hb, if_pos]
    rw [pyLen_predictVal]
    norm_num

lemma regionEntry_mem {p : ℕ × TextRec × PyVal} {imgH imgW : ℕ} {adjust : Bool}
    {net : PILImg → List (List ℚ)} {blank : ℕ} {id_to_char : ℕ → String}
    {index : ℕ} {rec : TextRec} :
    p ∈ regionEntry imgH imgW adjust net blank id_to_char index rec ↔
      ¬ badCrop (detectCropShape imgH imgW adjust rec) ∧
        p = (index, rec,
          DenseNetOCR.predictVal net blank id_to_char (detectCropImage imgH imgW adjust rec)) := by
  rw [regionEntry_eq]
  by_cases hb : badCrop (detectCropShape imgH imgW adjust rec)
  · simp [hb]
  · simp [hb]

lemma detectLoop_mem (imgH imgW : ℕ) (adjust : Bool) (net : PILImg → List (List ℚ))
    (blank : ℕ) (id_to_char : ℕ → String) (recs : List TextRec) :
    ∀ (i0 : ℕ) (p : ℕ × TextRec × PyVal),
      p ∈ detectLoop imgH imgW adjust net blank id_to_char i0 recs ↔
        ∃ (k : ℕ) (hk : k < recs.length), p.1 = i0 + k ∧
          p ∈ regionEntry imgH imgW adjust net blank id_to_char (i0 + k) (recs.get ⟨k, hk⟩) := by
  induction recs with
  | nil =>
    intro i0 p
    simp [detectLoop]
  | cons rec rest ih =>
    intro i0 p
    rw [detectLoop, List.mem_append]
    constructor
    · intro h
      rcases h with h | h
      · refine ⟨0, by simp, ?_, ?_⟩
        · have := (regionEntry_mem.mp h).2
          rw [this]
          simp
        · simpa using h
      · rcases (ih (i0 + 1) p).mp h with ⟨k, hk, hp1, hmem⟩
        refine ⟨k + 1, by simpa using Nat.succ_lt_succ hk, by omega, ?_⟩
        have hi : i0 + (k + 1) = i0 + 1 + k := by omega
        rw [hi]
        simpa using hmem
    · rintro ⟨k, hk, hp1, hmem⟩
      cases k with
      | zero =>
        left
        simpa using hmem
      | succ k =>
        right
        apply (ih (i0 + 1) p).mpr
        refine ⟨k, by simpa using Nat.lt_of_succ_lt_succ hk, by omega, ?_⟩
        have hi : i0 + 1 + k = i0 + (k + 1) := by omega
        rw [hi]
        simpa using hmem

lemma detect_mem (text_recs : List TextRec) (imgH imgW : ℕ) (adjust : Bool)
    (net : PILImg → List (List ℚ)) (blank : ℕ) (id_to_char : ℕ → String)
    (p : ℕ × TextRec × PyVal) :
    p ∈ TextDetectionApp.detect text_recs imgH imgW adjust net blank id_to_char ↔
      ∃ hk : p.1 < text_recs.length,
        ¬ badCrop (detectCropShape imgH imgW adjust (text_recs.get ⟨p.1, hk⟩)) ∧
        p.2 = (text_recs.get ⟨p.1, hk⟩,
          DenseNetOCR.predictVal net blank id_to_char
            (detectCropImage imgH imgW adjust (text_recs.get ⟨p.1, hk⟩))) := by
  unfold TextDetectionApp.detect
  rw [detectLoop_mem]
  constructor
  · rintro ⟨k, hk, hp1, hmem⟩
    have hk0 : p.1 = k := by omega
    rcases regionEntry_mem.mp hmem with ⟨hgood, hp⟩
    subst hk0
    refine ⟨hk, hgood, ?_⟩
    have h2 := congrArg Prod.snd hp
    simpa using h2
  · rintro ⟨hk, hgood, hp2⟩
    refine ⟨p.1, hk, by omega, regionEntry_mem.mpr ⟨hgood, ?_⟩⟩
    rcases p with ⟨i, e⟩
    simp only at hp2 ⊢
    rw [hp2]
    simp

/-! ## Lemmas about the sequence decoder -/

lemma mem_collapseRepeats : ∀ (l : List ℕ) (x : ℕ), x ∈ collapseRepeats l → x ∈ l
  | [], _, h => by simp [collapseRepeats] at h
  | [a], x, h => by simpa [collapseRepeats] using h
  | a :: b :: rest, x, h => by
    rw [collapseRepeats] at h
    by_cases hab : a = b
    · rw [if_pos hab] at h
      have hmem := mem_collapseRepeats (b :: rest) x h
      simp only [List.mem_cons] at hmem ⊢
      tauto
    · rw [if_neg hab] at h
      rcases List.mem_cons.mp h with h1 | h1
      · simp [h1]
      · have hmem := mem_collapseRepeats (b :: rest) x h1
        simp only [List.mem_cons] at hmem ⊢
        tauto

lemma ctcGreedyDecode_all_blank (mat : List (List ℚ)) (blank : ℕ)
    (h : ∀ row ∈ mat, argmaxIdx row = blank) : ctcGreedyDecode mat blank = [] := by
  unfold ctcGreedyDecode
  rw [List.filter_eq_nil_iff]
  intro a ha
  have ha2 : a ∈ mat.map argmaxIdx := mem_collapseRepeats _ a ha
  rcases List.mem_map.mp ha2 with ⟨row, hrow, hae⟩
  have : a = blank := by rw [← hae, h row hrow]
  simp [this]

/-! ## Claim theorems -/

/-- Claim C6: sequence decoding is best-path decoding — argmax per timestep,
collapse of consecutive repeats, removal of blanks, dictionary mapping and
concatenation; an all-blank-argmax matrix decodes to the empty string; and a
matrix whose argmax sequence is `[A, A, blank, A]` decodes to `"AA"` — not
`"A"`, not `"AAA"`.  (The concrete matrix below has argmax sequence
`[1, 1, 0, 1]` with blank index 0, and the dictionary maps 1 to `"A"`.) -/
theorem sequence_decoder_best_path :
    (∀ (mat : List (List ℚ)) (blank : ℕ) (id_to_char : ℕ → String),
      decodeText mat blank id_to_char =
        String.join (((collapseRepeats (mat.map argmaxIdx)).filter
          (fun s => decide (s ≠ blank))).map id_to_char)) ∧
    (∀ (mat : List (List ℚ)) (blank : ℕ) (id_to_char : ℕ → String),
      (∀ row ∈ mat, argmaxIdx row = blank) → decodeText mat blank id_to_char = "") ∧
    (decodeText [[1, 0], [1, 0], [0, 1], [1, 0]] 1 (fun i => if i = 0 then "A" else "?") = "AA" ∧
      ("AA" : String) ≠ "A" ∧ ("AA" : String) ≠ "AAA") := by
  refine ⟨fun mat blank id_to_char => rfl, ?_, ?_, by decide, by decide⟩
  · intro mat blank id_to_char h
    unfold decodeText
    rw [ctcGreedyDecode_all_blank mat blank h]
    rfl
  · decide

/-- Claim C6 witness: the all-blank branch of `sequence_decoder_best_path`
applied to a concrete one-timestep matrix whose argmax is the blank index. -/
theorem sequence_decoder_best_path_witness :
    decodeText [[(3 : ℚ), 1]] 0 (fun _ => "x") = "" :=
  sequence_decoder_best_path.2.1 [[(3 : ℚ), 1]] 0 (fun _ => "x") (by decide)

/-- Claim C8: the score-threshold filter (keep score strictly above 0.7) and
the minimum-size filter (drop boxes with width or height below 16 px) commute
and are jointly the filter by the conjunction of the two masks; the source's
order (score first, then size, `ctpnFiltered`) is immaterial. -/
theorem ctpn_filters_commute (l : List (IntBox × ℚ)) :
    ctpnFiltered l = (l.filter sizeMask).filter scoreMask ∧
    ctpnFiltered l = l.filter (fun p => scoreMask p && sizeMask p) := by
  constructor
  · unfold ctpnFiltered
    rw [List.filter_filter, List.filter_filter]
    apply List.filter_congr
    intro a _
    exact Bool.and_comm _ _
  · unfold ctpnFiltered
    rw [List.filter_filter]
    apply List.filter_congr
    intro a _
    exact Bool.and_comm _ _

/-- Claim C9: `DenseNetOCR.predict` always returns the 2-tuple
`(decoded string, resized image)` — never the string alone — and the second
component is the strip resized to height 32. -/
theorem densenet_predict_returns_pair (net : PILImg → List (List ℚ)) (blank : ℕ)
    (id_to_char : ℕ → String) (image : PILImg) :
    ∃ s : String,
      DenseNetOCR.predictVal net blank id_to_char image =
        PyVal.tup [PyVal.str s, PyVal.img (ocrResize image)] ∧
      pyLen (DenseNetOCR.predictVal net blank id_to_char image) = 2 ∧
      (ocrResize image).height = 32 :=
  ⟨decodeText (net (ocrResize image)) blank id_to_char, rfl, rfl, rfl⟩

/-- Claim C5: with `adjust` set, the crop corners are expanded by 10% of the
region's width horizontally (subtracted from the left x, added to the right
x) and by 20% of the region's height vertically (subtracted from the top y,
added to the bottom y) — both percentages truncated toward zero to whole
pixels, as Python's `int()` does — and clamped to `(1, 1)` from below and
`(imageWidth - 2, imageHeight - 2)` from above; without `adjust`, only the
clamping occurs. -/
theorem detect_crop_margin_expansion (rec : TextRec) (imgH imgW : ℕ) :
    detectPt1 true rec = ⟨max 1 (rec.x1 - Int.tdiv (rec.x2 - rec.x1) 10),
      max 1 (rec.y1 - Int.tdiv (rec.y2 - rec.y1) 5)⟩ ∧
    detectPt3 true rec imgH imgW =
      ⟨min (rec.x2 + Int.tdiv (rec.x2 - rec.x1) 10) ((imgW : ℤ) - 2),
       min ((imgH : ℤ) - 2) (rec.y2 + Int.tdiv (rec.y2 - rec.y1) 5)⟩ ∧
    detectPt1 false rec = ⟨max 1 rec.x1, max 1 rec.y1⟩ ∧
    detectPt3 false rec imgH imgW =
      ⟨min rec.x2 ((imgW : ℤ) - 2), min ((imgH : ℤ) - 2) rec.y2⟩ := by
  refine ⟨?_, ?_, by simp [detectPt1], by simp [detectPt3]⟩
  · simp [detectPt1, xlength_eq, ylength_eq]
  · simp [detectPt3, xlength_eq, ylength_eq]

/-- Claim C7: the crop taken by `dumpRotateImage` from the rotated canvas is
the row slice `max(1, int(pt1_y)) : min(ydim - 1, int(pt3_y))` and the column
slice `max(1, int(pt1_x)) : min(xdim - 1, int(pt3_x))` of the transformed
corners, and consequently every row index it reads lies in
`[1, heightNew - 2]` and every column index in `[1, widthNew - 2]`: row 0,
column 0, the last row and the last column of the rotated canvas are never
read. -/
theorem dumpRotateImage_crop_clamped (h w : ℕ) (d : ℝ) (pt1 pt3 : Pt) :
    rowStart h w d pt1 = max 1 (truncR (txY h w d pt1)) ∧
    rowStop h w d pt3 = min (heightNew h w d - 1) (truncR (txY h w d pt3)) ∧
    colStart h w d pt1 = max 1 (truncR (txX h w d pt1)) ∧
    colStop h w d pt3 = min (widthNew h w d - 1) (truncR (txX h w d pt3)) ∧
    cropRowSet h w d pt1 pt3 ⊆ Set.Icc 1 (heightNew h w d - 2) ∧
    cropColSet h w d pt1 pt3 ⊆ Set.Icc 1 (widthNew h w d - 2) := by
  refine ⟨rfl, rfl, rfl, rfl, ?_, ?_⟩
  · exact pySliceSet_subset (heightNew_nonneg h w d) (le_max_left 1 _) (min_le_left _ _)
  · exact pySliceSet_subset (widthNew_nonneg h w d) (le_max_left 1 _) (min_le_left _ _)

/-! ## Axis-aligned evaluation of the crop shape (used by the detect claims) -/

lemma detectCropShape_axis_aligned (imgH imgW : ℕ) (rec : TextRec)
    (hy : 1 ≤ rec.y1) (hx : max 1 rec.x1 < rec.x2) :
    detectCropShape imgH imgW false rec =
      (pySliceLen (max 1 rec.y1) (min ((imgH : ℤ) - 1) (min ((imgH : ℤ) - 2) rec.y2)) imgH,
       pySliceLen (max 1 rec.x1) (min ((imgW : ℤ) - 1) (min rec.x2 ((imgW : ℤ) - 2))) imgW) := by
  have hpt1 : detectPt1 false rec = ⟨max 1 rec.x1, max 1 rec.y1⟩ := by
    simp [detectPt1]
  have h1 : (detectPt1 false rec).y = rec.y1 := by
    rw [hpt1]
    simp only
    omega
  have h2 : (detectPt1 false rec).x < rec.x2 := by
    rw [hpt1]
    exact hx
  have hdeg : detectDegree false rec = 0 := detectDegree_eq_zero h1 h2
  unfold detectCropShape
  rw [hdeg, dumpRotateImageShape_zero, hpt1]
  have hpt3 : detectPt3 false rec imgH imgW =
      ⟨min rec.x2 ((imgW : ℤ) - 2), min ((imgH : ℤ) - 2) rec.y2⟩ := by
    simp [detectPt3]
  rw [hpt3]
  simp only
  have hmy : max 1 (max 1 rec.y1) = max 1 rec.y1 := by omega
  have hmx : max 1 (max 1 rec.x1) = max 1 rec.x1 := by omega
  rw [hmy, hmx]

lemma toDegrees_eq_zero_iff (x : ℝ) : toDegrees x = 0 ↔ x = 0 := by
  unfold toDegrees
  rw [div_eq_zero_iff, mul_eq_zero]
  norm_num [Real.pi_ne_zero]

/-- Claim C4 counterexample: for the region `rec = (10, 5, 50, 9, ...)` — a
tilted quad whose top-left corner is `(10, 5)` and top-right corner `(50, 9)`
— the angle the code passes to rectification is `0` (the code pairs the
clamped top-left point with `(rec[2], rec[1])`, whose y-coordinate is the
*top-left* y), while `atan2` of the claimed corner differences
`(9 - 5, 50 - 10)` is a strictly positive angle. -/
theorem detect_degree_counterexample :
    detectDegree false ⟨10, 5, 50, 9, []⟩ ≠
      toDegrees (atan2 ((9 : ℝ) - 5) ((50 : ℝ) - 10)) := by
  have hL : detectDegree false ⟨10, 5, 50, 9, []⟩ = 0 :=
    detectDegree_eq_zero (by decide) (by decide)
  rw [hL]
  intro hEq
  have h40 : (0 : ℝ) < (50 : ℝ) - 10 := by norm_num
  unfold atan2 at hEq
  rw [if_pos h40] at hEq
  have harg : ((9 : ℝ) - 5) / ((50 : ℝ) - 10) = 1 / 10 := by norm_num
  rw [harg] at hEq
  have hz := (toDegrees_eq_zero_iff _).mp hEq.symm
  rw [Real.arctan_eq_zero_iff] at hz
  norm_num at hz

/-- Claim C4 (amended): the rotation angle passed to rectification is
`degrees(atan2(Δy, Δx))` computed between the *constructed* top-left point
`pt1` — the region's top-left corner after the optional margin expansion and
the clamp to at least `(1, 1)` — and the point `pt2 = (rec[2], rec[1])`,
which carries the region's *top-left* y-coordinate, not the top-right
corner's y-coordinate `rec[3]`. -/
theorem detect_degree_from_built_points (adjust : Bool) (rec : TextRec) :
    detectDegree adjust rec =
      toDegrees (atan2
        ((rec.y1 : ℝ) - ((max 1 (rec.y1 - (if adjust then ylength rec else 0)) : ℤ) : ℝ))
        ((rec.x2 : ℝ) - ((max 1 (rec.x1 - (if adjust then xlength rec else 0)) : ℤ) : ℝ))) := by
  cases adjust
  · simp only [detectDegree, detectPt1, detectPt2, Bool.false_eq_true, if_false]
    push_cast
    norm_num
  · simp only [detectDegree, detectPt1, detectPt2, if_true]
    push_cast
    norm_num

/-- Claim C10: without `adjust`, for a region whose top y-coordinate is at
least 1, the points used for the angle share their y-coordinate, the computed
angle is exactly 0 (given that the right x exceeds the clamped left x), and
the rectified crop's shape is that of an axis-aligned crop of the unrotated
image: canvas = the original image, bounds taken directly from the clamped
corner points. -/
theorem detect_no_adjust_zero_tilt (rec : TextRec) (imgH imgW : ℕ)
    (hy : 1 ≤ rec.y1) (hx : max 1 rec.x1 < rec.x2) :
    (detectPt1 false rec).y = (detectPt2 rec).y ∧
    detectDegree false rec = 0 ∧
    detectCropShape imgH imgW false rec =
      (pySliceLen (max 1 rec.y1) (min ((imgH : ℤ) - 1) (min ((imgH : ℤ) - 2) rec.y2)) imgH,
       pySliceLen (max 1 rec.x1) (min ((imgW : ℤ) - 1) (min rec.x2 ((imgW : ℤ) - 2))) imgW) := by
  have h1 : (detectPt1 false rec).y = rec.y1 := by
    simp only [detectPt1, Bool.false_eq_true, if_false]
    omega
  have h2 : (detectPt1 false rec).x < rec.x2 := by
    simp only [detectPt1, Bool.false_eq_true, if_false]
    exact hx
  refine ⟨?_, detectDegree_eq_zero h1 h2, detectCropShape_axis_aligned imgH imgW rec hy hx⟩
  rw [h1]
  rfl

/-- Claim C10 witness: the region `(2, 3, 40, 13)` in a 100×100 image. -/
theorem detect_no_adjust_zero_tilt_witness :
    (detectPt1 false ⟨2, 3, 40, 13, []⟩).y = (detectPt2 ⟨2, 3, 40, 13, []⟩).y ∧
    detectDegree false ⟨2, 3, 40, 13, []⟩ = 0 ∧
    detectCropShape 100 100 false ⟨2, 3, 40, 13, []⟩ =
      (pySliceLen (max 1 3) (min (((100 : ℕ) : ℤ) - 1) (min (((100 : ℕ) : ℤ) - 2) 13)) 100,
       pySliceLen (max 1 2) (min (((100 : ℕ) : ℤ) - 1) (min 40 (((100 : ℕ) : ℤ) - 2))) 100) :=
  detect_no_adjust_zero_tilt ⟨2, 3, 40, 13, []⟩ 100 100 (by decide) (by decide)

/-! ## Concrete crop evaluations used by the orchestrator claims -/

lemma badCrop_example : badCrop (detectCropShape 100 100 false ⟨2, 2, 10, 90, []⟩) := by
  rw [detectCropShape_axis_aligned 100 100 _ (by decide) (by decide)]
  decide

lemma goodCrop_example : ¬ badCrop (detectCropShape 50 50 false ⟨3, 4, 30, 12, []⟩) := by
  rw [detectCropShape_axis_aligned 50 50 _ (by decide) (by decide)]
  decide

/-- Claim C1 (evaluation at the failing input): a single region with a valid
crop whose recognition output decodes to the *empty* string is nevertheless
recorded in the results: the guard `len(text) > 0` tests the 2-tuple
`(out, im)` returned by `DenseNetOCR.predict`, whose length is always 2, not
the decoded string `out`.  The recorded value's first tuple component is
`PyVal.str ""` — the empty decoded text. -/
theorem detect_records_entry_despite_empty_text :
    TextDetectionApp.detect [⟨2, 2, 40, 10, []⟩] 100 100 false (fun _ => []) 0 (fun _ => "") =
      [(0, ⟨2, 2, 40, 10, []⟩, PyVal.tup [PyVal.str "", PyVal.img ⟨152, 32⟩])] := by
  have hshape : detectCropShape 100 100 false ⟨2, 2, 40, 10, []⟩ = (8, 38) := by
    rw [detectCropShape_axis_aligned 100 100 _ (by decide) (by decide)]
    decide
  have himg : detectCropImage 100 100 false ⟨2, 2, 40, 10, []⟩ = ⟨38, 8⟩ := by
    unfold detectCropImage
    rw [hshape]
  have hval : DenseNetOCR.predictVal (fun _ => ([] : List (List ℚ))) 0 (fun _ => "") ⟨38, 8⟩ =
      PyVal.tup [PyVal.str "", PyVal.img ⟨152, 32⟩] := by
    have hw : ocrResizeWidth ⟨38, 8⟩ = 152 := by
      unfold ocrResizeWidth truncQ
      rw [show ((38 : ℕ) : ℚ) / (((8 : ℕ) : ℚ) / 32) = 152 by norm_num,
        if_pos (by norm_num : (0 : ℚ) ≤ 152)]
      norm_num
    have hresize : ocrResize ⟨38, 8⟩ = (⟨152, 32⟩ : PILImg) := by
      unfold ocrResize
      rw [hw]
      rfl
    simp only [DenseNetOCR.predictVal]
    rw [hresize]
    rfl
  unfold TextDetectionApp.detect
  simp only [detectLoop]
  rw [regionEntry_eq, hshape, himg, if_neg (by decide : ¬ badCrop ((8 : ℕ), (38 : ℕ))), hval]
  rfl

/-- Claim C2: a region whose rectified crop has height < 1, or width < 1, or
height strictly greater than width, is skipped: its index never appears in
the results, its recognition is never consulted (its `regionEntry` is empty
for *every* recognition network), and every other region is processed exactly
as usual (membership for indices `j ≠ i` is characterised independently of
region `i`).  The embedding is a total function — no exception. -/
theorem detect_skips_invalid_crop (text_recs : List TextRec) (imgH imgW : ℕ) (adjust : Bool)
    (net : PILImg → List (List ℚ)) (blank : ℕ) (id_to_char : ℕ → String) (i : ℕ)
    (hi : i < text_recs.length)
    (hbad : badCrop (detectCropShape imgH imgW adjust (text_recs.get ⟨i, hi⟩))) :
    (∀ e : TextRec × PyVal,
      (i, e) ∉ TextDetectionApp.detect text_recs imgH imgW adjust net blank id_to_char) ∧
    (∀ net' : PILImg → List (List ℚ),
      regionEntry imgH imgW adjust net' blank id_to_char i (text_recs.get ⟨i, hi⟩) = []) ∧
    (∀ (j : ℕ) (hj : j < text_recs.length) (e : TextRec × PyVal), j ≠ i →
      ((j, e) ∈ TextDetectionApp.detect text_recs imgH imgW adjust net blank id_to_char ↔
        (¬ badCrop (detectCropShape imgH imgW adjust (text_recs.get ⟨j, hj⟩)) ∧
          e = (text_recs.get ⟨j, hj⟩,
            DenseNetOCR.predictVal net blank id_to_char
              (detectCropImage imgH imgW adjust (text_recs.get ⟨j, hj⟩)))))) := by
  refine ⟨?_, ?_, ?_⟩
  · intro e hmem
    rcases (detect_mem text_recs imgH imgW adjust net blank id_to_char (i, e)).mp hmem with
      ⟨hk, hgood, _⟩
    exact hgood hbad
  · intro net'
    rw [regionEntry_eq, if_pos hbad]
  · intro j hj e _hne
    constructor
    · intro hmem
      rcases (detect_mem text_recs imgH imgW adjust net blank id_to_char (j, e)).mp hmem with
        ⟨hk, hgood, he⟩
      exact ⟨hgood, he⟩
    · rintro ⟨hgood, he⟩
      exact (detect_mem text_recs imgH imgW adjust net blank id_to_char (j, e)).mpr
        ⟨hj, hgood, he⟩

/-- Claim C2 witness: the region `(2, 2, 10, 90)` in a 100×100 image crops to
an 88×8 strip (height > width), so index 0 is absent from the results. -/
theorem detect_skips_invalid_crop_witness :
    ((0 : ℕ), ((⟨2, 2, 10, 90, []⟩ : TextRec), PyVal.tup [])) ∉
      TextDetectionApp.detect [⟨2, 2, 10, 90, []⟩] 100 100 false (fun _ => []) 0 (fun _ => "") :=
  (detect_skips_invalid_crop [⟨2, 2, 10, 90, []⟩] 100 100 false (fun _ => []) 0 (fun _ => "")
    0 (by simp) badCrop_example).1 (⟨2, 2, 10, 90, []⟩, PyVal.tup [])

/-- Claim C3: every key of the results of `TextDetectionApp.detect` is the
original enumeration index of its region in the detection output — the entry
under key `k` holds the `k`-th detected region, keys are all below the raw
detection count, and no key maps to two different entries. -/
theorem detect_keys_index_regions (text_recs : List TextRec) (imgH imgW : ℕ) (adjust : Bool)
    (net : PILImg → List (List ℚ)) (blank : ℕ) (id_to_char : ℕ → String)
    (k : ℕ) (e : TextRec × PyVal)
    (hmem : (k, e) ∈ TextDetectionApp.detect text_recs imgH imgW adjust net blank id_to_char) :
    (∃ hk : k < text_recs.length, e.1 = text_recs.get ⟨k, hk⟩) ∧
    (∀ e' : TextRec × PyVal,
      (k, e') ∈ TextDetectionApp.detect text_recs imgH imgW adjust net blank id_to_char →
        e' = e) := by
  rcases (detect_mem text_recs imgH imgW adjust net blank id_to_char (k, e)).mp hmem with
    ⟨hk, _, he⟩
  have he2 : e = (text_recs.get ⟨k, hk⟩,
      DenseNetOCR.predictVal net blank id_to_char
        (detectCropImage imgH imgW adjust (text_recs.get ⟨k, hk⟩))) := he
  refine ⟨⟨hk, by rw [he2]⟩, ?_⟩
  intro e' hmem'
  rcases (detect_mem text_recs imgH imgW adjust net blank id_to_char (k, e')).mp hmem' with
    ⟨hk', _, he'⟩
  have he3 : e' = (text_recs.get ⟨k, hk⟩,
      DenseNetOCR.predictVal net blank id_to_char
        (detectCropImage imgH imgW adjust (text_recs.get ⟨k, hk⟩))) := he'
  rw [he3, he2]

/-- Claim C3 witness: a one-region run; key 0 holds region 0 and is unique. -/
theorem detect_keys_index_regions_witness :
    (∃ hk : 0 < ([⟨3, 4, 30, 12, []⟩] : List TextRec).length,
      ((⟨3, 4, 30, 12, []⟩ : TextRec),
        DenseNetOCR.predictVal (fun _ => [[1, 0]]) 0 (fun _ => "A")
          (detectCropImage 50 50 false ⟨3, 4, 30, 12, []⟩)).1 =
        ([⟨3, 4, 30, 12, []⟩] : List TextRec).get ⟨0, hk⟩) ∧
    (∀ e' : TextRec × PyVal,
      (0, e') ∈ TextDetectionApp.detect [⟨3, 4, 30, 12, []⟩] 50 50 false
        (fun _ => [[1, 0]]) 0 (fun _ => "A") →
      e' = ((⟨3, 4, 30, 12, []⟩ : TextRec),
        DenseNetOCR.predictVal (fun _ => [[1, 0]]) 0 (fun _ => "A")
          (detectCropImage 50 50 false ⟨3, 4, 30, 12, []⟩))) :=
  detect_keys_index_regions [⟨3, 4, 30, 12, []⟩] 50 50 false (fun _ => [[1, 0]]) 0 (fun _ => "A")
    0 (⟨3, 4, 30, 12, []⟩,
      DenseNetOCR.predictVal (fun _ => [[1, 0]]) 0 (fun _ => "A")
        (detectCropImage 50 50 false ⟨3, 4, 30, 12, []⟩))
    ((detect_mem [⟨3, 4, 30, 12, []⟩] 50 50 false (fun _ => [[1, 0]]) 0 (fun _ => "A") _).mpr
      ⟨by simp, goodCrop_example, rfl⟩)
